import Mathlib

/-
Verification development for the dir directory-listing tool.
The Go source (dir.go, fileitem.go, parsing.go) is shallowly embedded below:
Go strings are modeled as Lean String over their character lists (the inputs of
interest are ASCII, so byte indexing and character indexing agree), machine
integers int64 as Int, byte buffers as List Nat, time.Time as Int with 0 playing
the role of the zero Time, and the package-level runtime configuration as an
explicit Config record threaded through the functions that read it.
External collaborators (the regex engine, the gobwas glob engine beyond the
pattern forms exercised here, the sevenzip reader, pdftotext, os.Stat and
os.CreateTemp) are modeled at their interface boundary, as the spec directs.
-/

namespace Dir

/-! Basic Go string helpers used throughout the source. -/

/-- Embeds ternaryString from dir.go: condition choice between two strings. -/
def ternaryString (condition : Bool) (s1 s2 : String) : String :=
  if condition then s1 else s2

/-- Go strings.ToUpper, restricted to the ASCII range that the tables use. -/
def goToUpper (s : String) : String := ⟨s.data.map Char.toUpper⟩

/-- Go strings.ToLower, restricted to the ASCII range that the tables use. -/
def goToLower (s : String) : String := ⟨s.data.map Char.toLower⟩

/-- Does the second character list begin with the first one. -/
def leadsWith : List Char → List Char → Bool
  | [], _ => true
  | _ :: _, [] => false
  | a :: as, b :: bs => a == b && leadsWith as bs

/-- Does the second character list contain the first one as a contiguous run. -/
def hasRun (sub : List Char) : List Char → Bool
  | [] => sub.isEmpty
  | x :: xs => leadsWith sub (x :: xs) || hasRun sub xs

/-- Go strings.Contains: does s contain sub as a substring. -/
def goContains (s sub : String) : Bool := hasRun sub.data s.data

/-- Go strings.LastIndex(s, onechar) for a single-character needle: the last
index at which the character occurs, or -1 when absent. -/
def lastIndexOfChar (c : Char) : List Char → Int
  | [] => -1
  | x :: xs =>
    let r := lastIndexOfChar c xs
    if r ≥ 0 then r + 1 else if x = c then 0 else -1

/-- Go slice-from expression s[i:] on character positions. -/
def substrFrom (s : String) (i : Nat) : String := ⟨s.data.drop i⟩

/-- Go test name[0] == dot: the hidden-name check.  The Go code indexes byte 0
and would panic on an empty name; the model reports false there. -/
def startsWithDot (s : String) : Bool := s.data.head? == some '.'

/-- Conversion of a Go string to the byte buffer passed to the regex engine
(codepoint-per-entry; the inputs of interest are ASCII). -/
def strBytes (s : String) : List Nat := s.data.map Char.toNat

/-- Go filepath.Join of a directory and a name, for the forward-slash platform
the source targets. -/
def pathJoin (p n : String) : String := p ++ "/" ++ n

/-! The Filetype enumeration and extension tables from dir.go. -/

inductive Filetype where
  | NONE
  | AUDIO
  | ARCHIVE
  | IMAGE
  | VIDEO
  | DOCUMENT
  | DATA
  | CONFIG
  | CODE
  | DIRECTORY
  | EXECUTABLE
  | SYMLINK
  | HIDDEN
  | DEFAULT
deriving DecidableEq

open Filetype

/-- Embeds the Extensions map from dir.go (a Go map lookup of a missing key
yields the empty string). -/
def Extensions : Filetype → String
  | AUDIO => ",aac,au,flac,mid,midi,mka,mp3,mpc,ogg,ra,wav,axa,oga,opus,spx,xspf,"
  | ARCHIVE => ",7z,ace,apk,arj,bz,bz2,cpio,deb,dmg,dz,gz,jar,lz,lzh,lzma,msi,rar,rpm,rz,tar,taz,tbz,tbz2,tgz,tlz,txz,tz,xz,z,Z,zip,zoo,"
  | IMAGE => ",bmp,cgm,dib,dl,emf,gif,gl,jpeg,jpg,mng,pbm,pcx,pdn,pgm,png,ppm,svg,svgz,tga,tif,tiff,xbm,xcf,xpm,xwd,"
  | VIDEO => ",3g2,3gp,anx,asf,avi,axv,flc,fli,flv,m2ts,m2v,m4v,mkv,mov,mp4,mp4v,mpeg,mpg,mts,nuv,ogm,ogv,ogx,qt,rm,rmvb,ts,vob,webm,wmv,yuv,"
  | DOCUMENT => ",doc,docx,ebk,epub,html,htm,markdown,mbox,mbp,md,mht,mhtml,mobi,msg,odt,ofx,one,pages,pdf,ppt,pptx,ps,pub,rtf,tex,txt,vsdx,xls,xlsx,"
  | DATA => ",cdb,csv,dat,db3,dbf,graphql,json,log,m3u8,rpt,sdf,sql,xml,"
  | CONFIG => ",adp,ant,cfg,confit,ini,prefs,rc,tcl,yaml,"
  | CODE => ",ahk,applescript,asm,au3,bas,bash,bat,c,cmake,cmd,coffee,cpp,cs,cxx,dockerfile,elf,es,exe,go,gradle,groovy,gvy,h,hpp,hxx,inc,ino,java,js,kt,ktm,kts,lua,m,mak,mm,perl,ph,php,pl,pp,ps1,psm1,py,rake,rb,rbw,rbuild,rbx,rs,ru,ruby,scpt,sh,ts,tsx,v,vb,vbs,vhd,vhdl,zsh,"
  | _ => ""

/-- The extension-bearing classes visited by the Go loop
for ft := AUDIO; ft <= CODE; ft++ in FileType, in iota order. -/
def extensionScanOrder : List Filetype :=
  [ AUDIO, ARCHIVE, IMAGE, VIDEO, DOCUMENT, DATA, CONFIG, CODE]

/-! The ArchiveType enumeration and sniffing from dir.go. -/

inductive ArchiveType where
  | ARCHIVE_NA
  | ARCHIVE_ZIP
  | ARCHIVE_TGZ
  | ARCHIVE_7Z
deriving DecidableEq

open ArchiveType

/-- Embeds FileIsArchiveType from dir.go: lower-case the text after the last
dot (the whole name when there is no dot) and compare against the three
recognized archive extensions. -/
def FileIsArchiveType (filename : String) : ArchiveType :=
  let extension := goToLower (substrFrom filename (lastIndexOfChar '.' filename.data + 1).toNat)
  if extension == "zip" then ARCHIVE_ZIP
  else if extension == "tgz" || extension == "gz" then ARCHIVE_TGZ
  else if extension == "7z" then ARCHIVE_7Z
  else ARCHIVE_NA

/-! The searchtype enumeration from dir.go. -/

inductive searchtype where
  | SEARCH_NONE
  | SEARCH_CASE
  | SEARCH_NOCASE
  | SEARCH_REGEX
deriving DecidableEq

open searchtype

/-! The fileitem record (fileitem.go) and its pure methods. -/

/-- Embeds the fileitem struct of fileitem.go.  The Go field carrying the
memoized classification is named with a leading underscore; here it is
ftCache. -/
structure fileitem where
  Path : String := ""
  Name : String := ""
  Size : Int := 0
  Modified : Int := 0
  Created : Int := 0
  Accessed : Int := 0
  IsDir : Bool := false
  Mode : Nat := 0
  LinkDest : String := ""
  InArchive : Bool := false
  ftCache : Filetype := NONE
  FoundText : String := ""
deriving DecidableEq

/-- Embeds Extension() of fileitem.go applied to a bare name: the upper-cased
text after the last dot, or the empty string when the last dot sits at
character index 1 or earlier (the Go guard is lastdot <= 1). -/
def extensionOfName (name : String) : String :=
  let lastdot := lastIndexOfChar '.' name.data
  ternaryString (decide (lastdot ≤ 1)) "" (goToUpper (substrFrom name (lastdot + 1).toNat))

/-- Embeds fileitem.Extension() from fileitem.go. -/
def fileitem.Extension (f : fileitem) : String := extensionOfName f.Name

/-- Embeds fileitem.IsArchive() from fileitem.go. -/
def fileitem.IsArchive (f : fileitem) : Bool :=
  goContains (Extensions ARCHIVE) ("," ++ goToLower (f.Extension ++ ","))

/-- The pure classification performed by the body of fileitem.FileType() when
the cache is cold.  It reads exactly the IsDir flag, the mode bits and the
name, mirroring the Go statement order: directory, then executable bits, then
the extension-table scan, then the hidden-dot fallback, then DEFAULT. -/
def fileTypeOf (isDir : Bool) (mode : Nat) (name : String) : Filetype :=
  let ext := extensionOfName name
  let ft0 : Filetype :=
    if isDir then DIRECTORY
    else if mode &&& 0o111 ≠ 0 then EXECUTABLE
    else
      match extensionScanOrder.find? (fun ft => goContains (Extensions ft) ("," ++ goToLower (ext ++ ","))) with
      | some ft => ft
      | none => NONE
  let ft1 := if ft0 = NONE ∧ startsWithDot name then HIDDEN else ft0
  if ft1 = NONE then DEFAULT else ft1

/-- Embeds fileitem.FileType() from fileitem.go.  The Go method mutates the
receiver through a pointer; the model returns the value together with the
updated record. -/
def fileitem.FileType (f : fileitem) : Filetype × fileitem :=
  if f.ftCache ≠ NONE then (f.ftCache, f)
  else
    let t := fileTypeOf f.IsDir f.Mode f.Name
    (t, { f with ftCache := t })

/-! The glob matcher.  The gobwas glob package is an external collaborator
(spec section 6); it is modeled here with the standard semantics of the
pattern forms the source exercises: a literal character matches itself, the
question mark matches any single character, and the star matches any
character sequence (no separator set is passed to glob.MustCompile). -/

/-- Match a compiled glob pattern against a candidate, both as character
lists. -/
def globMatch : List Char → List Char → Bool
  | [], s => s.isEmpty
  | c :: ps, s =>
    if c = '*' then s.tails.any (fun t => globMatch ps t)
    else
      match s with
      | [] => false
      | x :: xs => (c == '?' || c == x) && globMatch ps xs

/-! The runtime configuration.  dir.go holds the query state in package-level
variables initialized at declaration and adjusted by parseCmdLine before
list_directory is first entered; the model gathers the fields the core reads
into one record whose defaults are the Go initializers. -/

structure Config where
  listdirectories : Bool := true
  listfiles : Bool := true
  listInArchives : Bool := false
  listhidden : Bool := true
  only_executables : Bool := false
  listFoundText : Bool := false
  recurse_directories : Bool := false
  mindate : Int := 0
  maxdate : Int := 0
  minmaxdatetype : String := "m"
  minsize : Int := -1
  maxsize : Int := 9223372036854775807
  file_mask : String := ""
  haveGlobber : Bool := false
  case_sensitive : Bool := false
  exclude_exts : List String := []
  include_exts : List String := []
  text_search_type : searchtype := SEARCH_NONE
  pathIsArchive : Bool := false
  pw7zip : String := ""
  skipArchiveEntryMask : Bool := false
deriving DecidableEq

/-- The Config value holding exactly the Go package-level initializers. -/
def defaultConfig : Config := {}

/-- The mask string handed to glob.MustCompile at the end of parseCmdLine:
upper-cased first unless case_sensitive is on. -/
def compiledMask (cfg : Config) : String :=
  if !cfg.case_sensitive then goToUpper cfg.file_mask else cfg.file_mask

/-- The name test matcher.Match(testString) as performed in
fileMeetsConditions and archiveNameMatchesMask: the candidate is upper-cased
unless case_sensitive is on, then matched against the compiled mask. -/
def nameMaskTest (cfg : Config) (filename : String) : Bool :=
  globMatch (compiledMask cfg).data (ternaryString cfg.case_sensitive filename (goToUpper filename)).data

/-- Embeds archiveNameMatchesMask from dir.go. -/
def archiveNameMatchesMask (cfg : Config) (name : String) : Bool :=
  if !cfg.haveGlobber then false
  else nameMaskTest cfg name

/-! The ListingSet accumulator from dir.go. -/

structure ListingSet where
  Subdirs : List String := []
  Archives : List String := []
  MatchedFiles : List fileitem := []
  Filecount : Nat := 0
  Directorycount : Nat := 0
  Bytesfound : Int := 0
deriving DecidableEq

/-! External collaborators of the Condition Evaluator and Content Search
Engine, gathered in one record of interface functions.  Each field models one
boundary named in spec section 6: the compiled regular expression (Match on a
byte buffer, and the line-scanning matchTextBuffer built on FindAllStringIndex,
abstracted as a whole since no claim depends on excerpt internals), the ZIP
reader used for office containers, pdftotext, os.Stat, and os.CreateTemp
(which returns the fresh path of the created file, or none on failure). -/

structure SearchOracle where
  regexMatch : List Nat → Bool
  matchBuffer : List Nat → Bool → Bool × String
  zipList : String → Except String (List fileitem)
  zipExtract : String → String → Int → Except String (List Nat)
  runPdftotext : String → Except String String
  diskSearch : fileitem → Bool × String
  archiveSearch : fileitem → Bool × String
  stat : String → Option Nat
  createTemp : List String → String → Option String

/-- Embeds sanitizeTempPattern from dir.go. -/
def sanitizeTempPattern (name : String) : String :=
  let pat := String.replace name "/" "_"
  let pat := String.replace pat "\\" "_"
  let pat := pat.trim
  if pat = "" ∨ pat = "." then "archive-entry-*" else pat

/-- Embeds PDFText from dir.go: the not-a-pdf extension gate, then the
resolution and invocation of the external pdftotext utility (the resolution
cache PdftotextPath and the process run are the collaborator behind
runPdftotext). -/
def PDFText (o : SearchOracle) (fpath : String) (ignoreExtension : Bool) : Except String String :=
  let extension := goToUpper (substrFrom fpath (lastIndexOfChar '.' fpath.data + 1).toNat)
  if ignoreExtension = false ∧ extension ≠ "PDF" then .error "not a pdf file"
  else o.runPdftotext fpath

/-! The Condition Evaluator: fileMeetsConditions from dir.go. -/

/-- Embeds the loop over embeddedFiles.MatchedFiles inside the office branch
of fileMeetsConditions: state is (found, foundText, err), where err holds the
error of the most recent extractZipFileBytes call; in first-match mode the
loop breaks on a match, in find-all mode it accumulates excerpts. -/
def officeScanLoop (o : SearchOracle) (findAll : Bool) :
    List fileitem → Bool → String → Option String → Bool × String × Option String
  | [], found, foundText, err => (found, foundText, err)
  | f :: rest, found, foundText, _err =>
    let extracted := o.zipExtract f.Path f.Name f.Size
    match extracted with
    | .error e =>
      if findAll = false then
        let found1 := o.regexMatch []
        if found1 then (found1, foundText, some e)
        else officeScanLoop o findAll rest found1 foundText (some e)
      else
        let r := o.matchBuffer [] true
        if r.1 then officeScanLoop o findAll rest true (foundText ++ r.2) (some e)
        else officeScanLoop o findAll rest found foundText (some e)
    | .ok d =>
      if findAll = false then
        let found1 := o.regexMatch d
        if found1 then (found1, foundText, none)
        else officeScanLoop o findAll rest found1 foundText none
      else
        let r := o.matchBuffer d true
        if r.1 then officeScanLoop o findAll rest true (foundText ++ r.2) none
        else officeScanLoop o findAll rest found foundText none

/-- Embeds the content-search section of fileMeetsConditions (the block
guarded by text_search_type != SEARCH_NONE and !noTextSearch).  A left value
is an early return of the whole function; a right value means control falls
through to the executable check carrying the current foundText. -/
def textSearchBlock (cfg : Config) (o : SearchOracle) (target : fileitem) (noTextSearch : Bool) :
    Sum (Bool × String) String :=
  if cfg.text_search_type ≠ SEARCH_NONE ∧ noTextSearch = false then
    if target.IsDir then .inl (false, "")
    else if cfg.listInArchives ∧ target.InArchive = false ∧ target.IsArchive ∧
        archiveNameMatchesMask cfg target.Name then .inl (true, "")
    else if target.InArchive then .inl (o.archiveSearch target)
    else if target.Extension = "DOCX" ∨ target.Extension = "PPTX" ∨
        target.Extension = "XLSX" ∨ target.Extension = "VSDX" then
      match o.zipList (pathJoin target.Path target.Name) with
      | .error _ => .inl (false, "")
      | .ok embedded =>
        let r := officeScanLoop o cfg.listFoundText embedded false "" none
        let fr : Bool × String :=
          match r.2.2 with
          | some _ => o.diskSearch target
          | none => (r.1, r.2.1)
        if fr.1 = false then .inl (false, fr.2) else .inr fr.2
    else
      match PDFText o (pathJoin target.Path target.Name) false with
      | .ok s =>
        if cfg.listFoundText = false then
          if o.regexMatch (strBytes s) = false then .inl (false, "") else .inr ""
        else .inl (o.matchBuffer (strBytes s) true)
      | .error _ =>
        let fr := o.diskSearch target
        if fr.1 = false then .inl (false, fr.2) else .inr fr.2
  else .inr ""

/-- The timestamp selected by the minmaxdatetype switch: m is Modified, c is
Created, and anything else falls to Accessed. -/
def dateOf (cfg : Config) (target : fileitem) : Int :=
  if cfg.minmaxdatetype = "m" then target.Modified
  else if cfg.minmaxdatetype = "c" then target.Created
  else target.Accessed

/-- Embeds fileMeetsConditions from dir.go: the short-circuit chain of checks
over one fileitem, in source order.  Every early exit returns the pair
(false, empty found text), matching the Go returns. -/
def fileMeetsConditions (cfg : Config) (o : SearchOracle) (target : fileitem)
    (noTextSearch : Bool) : Bool × String :=
  if cfg.listdirectories = false ∧ target.IsDir then (false, "")
  else if cfg.listfiles = false ∧ target.IsDir = false then (false, "")
  else if cfg.exclude_exts ≠ [] ∧ target.Extension ∈ cfg.exclude_exts then (false, "")
  else if cfg.include_exts ≠ [] ∧ target.Extension ∉ cfg.include_exts then (false, "")
  else if cfg.listhidden = false ∧ startsWithDot target.Name then (false, "")
  else if cfg.mindate ≠ 0 ∧ dateOf cfg target < cfg.mindate then (false, "")
  else if cfg.maxdate ≠ 0 ∧ dateOf cfg target > cfg.maxdate then (false, "")
  else if target.Size < cfg.minsize ∨ target.Size > cfg.maxsize then (false, "")
  else if cfg.haveGlobber ∧ ¬(target.InArchive ∧ cfg.skipArchiveEntryMask) ∧
      nameMaskTest cfg target.Name = false then (false, "")
  else
    match textSearchBlock cfg o target noTextSearch with
    | .inl r => r
    | .inr foundText =>
      if cfg.only_executables then
        match o.stat (pathJoin target.Path target.Name) with
        | none => (false, foundText)
        | some mode =>
          if mode &&& 0o111 = 0 then (false, foundText) else (true, foundText)
      else (true, foundText)

/-! The Content Search Engine over archive-entry bytes already in memory:
archiveFileTextSearchFromData and its helpers from dir.go.  Temporary-file
effects are made explicit: the ambient set of existing temporary files is a
list of paths threaded in and out of the function.  os.CreateTemp is the
collaborator o.createTemp; creating and writing the temp file appends its
path, and the deferred os.Remove at the end of the Go scope erases it again
after the branch result is computed, on every path through the branch. -/

/-- Embeds the loop over embeddedFiles.MatchedFiles inside
archiveFileTextSearchFromData (which, unlike the disk office loop, skips an
entry whose extraction fails).  A left value is the early return taken in
first-match mode; a right value is the loop state (found, allFoundText) after
the last entry. -/
def fromDataOfficeLoop (o : SearchOracle) (findAll : Bool) :
    List fileitem → Bool → String → Sum (Bool × String) (Bool × String)
  | [], found, allText => .inr (found, allText)
  | f :: rest, found, allText =>
    match o.zipExtract f.Path f.Name f.Size with
    | .error _ => fromDataOfficeLoop o findAll rest found allText
    | .ok d =>
      let r := o.matchBuffer d findAll
      if r.1 then
        if findAll = false then .inl (true, "")
        else fromDataOfficeLoop o findAll rest true (allText ++ r.2)
      else fromDataOfficeLoop o findAll rest found allText

/-- Embeds archiveFileTextSearchFromData from dir.go.  Input fs is the list of
temporary files existing before the call; the second component of the result
is the list existing after it.  After the temp file is created the Go code
sets data to nil, so the final fallthrough line matches the empty buffer. -/
def archiveFileTextSearchFromData (cfg : Config) (o : SearchOracle) (fs : List String)
    (target : fileitem) (data : List Nat) : (Bool × String) × List String :=
  let t_ext := target.Extension
  if t_ext = "DOCX" ∨ t_ext = "PPTX" ∨ t_ext = "XLSX" ∨ t_ext = "VSDX" ∨ t_ext = "PDF" then
    match o.createTemp fs (sanitizeTempPattern target.Name) with
    | some pfilename =>
      let fs1 := fs ++ [pfilename]
      let inner : Option (Bool × String) :=
        if t_ext = "PDF" then
          match PDFText o pfilename true with
          | .ok s => some (o.matchBuffer (strBytes s) cfg.listFoundText)
          | .error _ => none
        else
          match o.zipList pfilename with
          | .error _ => none
          | .ok embedded =>
            match fromDataOfficeLoop o cfg.listFoundText embedded false "" with
            | .inl r => some r
            | .inr st => if st.1 then some (true, st.2) else none
      let result :=
        match inner with
        | some r => r
        | none => o.matchBuffer [] cfg.listFoundText
      (result, fs1.erase pfilename)
    | none => (o.matchBuffer data cfg.listFoundText, fs)
  else (o.matchBuffer data cfg.listFoundText, fs)

/-! The bounded in-memory loader archiveFileBytes and the search wrapper
archiveFileTextSearch from dir.go.  The three per-format extractors are the
Container Adapters; archiveFileBytes only dispatches to them, so they enter
as a record of interface functions with the Go signatures
(path, entry name, offset, length). -/

structure Extractors where
  zip : String → String → Int → Int → Except String (List Nat)
  sevenz : String → String → Int → Int → Except String (List Nat)
  tgz : String → String → Int → Int → Except String (List Nat)

/-- Embeds archiveFileBytes from dir.go: entries declared larger than
1,000,000 bytes are rejected before any adapter is consulted; otherwise the
adapter chosen by FileIsArchiveType on the container path is invoked with
offset 0 and the declared size as length. -/
def archiveFileBytes (x : Extractors) (target : fileitem) : Except String (List Nat) :=
  if target.Size > 1000000 then .error "archive entry too large"
  else
    match FileIsArchiveType target.Path with
    | ARCHIVE_ZIP => x.zip target.Path target.Name 0 target.Size
    | ARCHIVE_7Z => x.sevenz target.Path target.Name 0 target.Size
    | ARCHIVE_TGZ => x.tgz target.Path target.Name 0 target.Size
    | ARCHIVE_NA => .error "unsupported archive type"

/-- Embeds archiveFileTextSearch from dir.go: load the entry bytes, report
(false, empty) on any loader error, otherwise search the loaded bytes. -/
def archiveFileTextSearch (cfg : Config) (o : SearchOracle) (x : Extractors)
    (fs : List String) (target : fileitem) : (Bool × String) × List String :=
  match archiveFileBytes x target with
  | .error _ => ((false, ""), fs)
  | .ok data => archiveFileTextSearchFromData cfg o fs target data

/-! The chunked disk search diskFileTextSearch from dir.go.  The file is the
byte list; the bufio reader is modeled by the standard deterministic contract
for a regular file: each Read fills min(requested, remaining) bytes.  The
matcher m stands for the compiled pattern, applied to the scan buffer: in
first-match mode it is text_regex.Match, in find-all mode the found flag of
matchTextBuffer.  I/O errors other than EOF are not modeled.  The Nat in the
result counts the reader.Read calls performed (an observation the Go code
makes implicitly, one count per loop iteration). -/

/-- One loop of diskFileTextSearch.  The fuel argument only forces totality:
the caller passes file length + 1, which the termination argument of the Go
loop (each continuing iteration consumes a full chunk) makes sufficient, so
the zero-fuel branch is never taken from diskFileTextSearch. -/
def searchLoop (m : List Nat → Bool) (findAll : Bool) (chunkSize overlapSize fileSize : Nat) :
    Nat → List Nat → List Nat → Bool → Nat → Bool × Nat
  | 0, _, _, tf, reads => (tf, reads)
  | fuel + 1, remaining, buffer, tf, reads =>
    let n := min chunkSize remaining.length
    let buffer1 := buffer.take overlapSize ++ remaining.take n ++ buffer.drop (overlapSize + n)
    let tf1 := if findAll then (tf || m buffer1) else m buffer1
    if n < chunkSize ∨ n = fileSize then (tf1, reads + 1)
    else if tf1 = true ∧ findAll = false then (tf1, reads + 1)
    else searchLoop m findAll chunkSize overlapSize fileSize fuel
      (remaining.drop n) buffer1 tf1 (reads + 1)

/-- Embeds diskFileTextSearch from dir.go, returning whether a match was
reported and how many reads the loop performed.  chunkSize 20000 and
overlapSize 400 are the source constants; when the whole file fits in one
chunk they collapse to the file size and zero.  The scan buffer starts as the
zero bytes of make. -/
def diskFileTextSearchFull (m : List Nat → Bool) (findAll : Bool) (file : List Nat) : Bool × Nat :=
  let size := file.length
  let chunkSize := if 20000 > size then size else 20000
  let overlapSize := if 20000 > size then 0 else 400
  searchLoop m findAll chunkSize overlapSize size (size + 1) file
    (List.replicate (chunkSize + overlapSize) 0) false 0

/-- The match verdict of diskFileTextSearch. -/
def diskFileTextSearch (m : List Nat → Bool) (findAll : Bool) (file : List Nat) : Bool :=
  (diskFileTextSearchFull m findAll file).1

/-- The number of reads diskFileTextSearch performs. -/
def diskFileTextSearchReads (m : List Nat → Bool) (findAll : Bool) (file : List Nat) : Nat :=
  (diskFileTextSearchFull m findAll file).2

/-- The regex collaborator for a two-byte literal pattern: does the buffer
contain byte a immediately followed by byte b.  This is the semantics of
text_regex.Match for a pattern of two literal characters. -/
def containsPair (a b : Nat) : List Nat → Bool
  | [] => false
  | [_] => false
  | x :: y :: rest => (x == a && y == b) || containsPair a b (y :: rest)

/-! The ZIP adapter extractZipFileBytes from dir.go.  The archive/zip reader
is modeled as an optional entry list (none when zip.OpenReader fails); one
entry carries its name, its uncompressed bytes, and the error its Open would
return, if any.  A reader over an open entry is a position into its byte
list; Read(buf) copies min(len buf, remaining) bytes to the front of buf and
leaves the rest of buf untouched, as the Go io contract does for a fully
buffered source. -/

structure ZipEntry where
  name : String
  bytes : List Nat
  openErr : Option String := none
deriving DecidableEq

/-- Embeds the pseudo-seek loop of extractZipFileBytes: while curPos is short
of the target offset, read either a throwaway slice of size offset - curPos
(when a full-length read would overshoot) or the main buffer itself, and
advance curPos by the full length either way, as the Go code does.  State is
(reader position, main buffer); fuel forces totality and offset + 1 suffices
whenever length is positive (with length zero and a positive offset the Go
loop does not terminate either). -/
def zipSeekLoop (entry : List Nat) (length offset : Nat) :
    Nat → Nat → Nat → List Nat → Nat × List Nat
  | 0, _, pos, buffer => (pos, buffer)
  | fuel + 1, curPos, pos, buffer =>
    if curPos < offset then
      if length + curPos > offset then
        let readAmount := offset - curPos
        let n := min readAmount (entry.length - pos)
        zipSeekLoop entry length offset fuel (curPos + length) (pos + n) buffer
      else
        let n := min buffer.length (entry.length - pos)
        let buffer1 := (entry.drop pos).take n ++ buffer.drop n
        zipSeekLoop entry length offset fuel (curPos + length) (pos + n) buffer1
    else (pos, buffer)

/-- Embeds extractZipFileBytes from dir.go: allocate a zero buffer of the
requested length, scan the central directory for the first entry with the
exact name, pseudo-seek, then perform one final Read into the buffer and
return it.  When no entry name matches the loop just ends and the zero buffer
is returned with the nil error of the successful open. -/
def extractZipFileBytes (archive : Option (List ZipEntry)) (filename : String)
    (offset length : Nat) : Except String (List Nat) :=
  match archive with
  | none => .error "could not open archive"
  | some entries =>
    let buffer := List.replicate length (0 : Nat)
    match entries.find? (fun e => e.name == filename) with
    | none => .ok buffer
    | some e =>
      match e.openErr with
      | some err => .error err
      | none =>
        let st := zipSeekLoop e.bytes length offset (offset + 1) 0 0 buffer
        let n := min st.2.length (e.bytes.length - st.1)
        .ok ((e.bytes.drop st.1).take n ++ st.2.drop n)

/-! The 7-Zip adapter.  The bodgit sevenzip package is an external
collaborator; its interface contract, as the source relies on it, is: opening
a missing or corrupt archive fails with a generic ReadError, opening an
encrypted archive with a password other than the one it was created with
fails with a ReadError whose Encrypted flag is set, and a successful open
yields the entry list.  SevenZReadAll on an entry yields its uncompressed
bytes; SevenZSkip in SevenZSkipNoop mode does nothing. -/

structure SevenZEntry where
  name : String
  size : Int
  modified : Int
  isDir : Bool
  mode : Nat
  bytes : List Nat
deriving DecidableEq

structure SevenZArchive where
  encrypted : Bool
  password : String
  entries : List SevenZEntry
deriving DecidableEq

/-- The two failure shapes of sevenzip.OpenReaderWithPassword the source
distinguishes: a ReadError with Encrypted set, or anything else. -/
inductive SevenZOpenError where
  | encryptedErr
  | genericErr
deriving DecidableEq

/-- Models sevenzip.OpenReaderWithPassword at its interface: none stands for
a missing or corrupt archive file. -/
def sevenzipOpen (archive : Option SevenZArchive) (pw : String) :
    Except SevenZOpenError (List SevenZEntry) :=
  match archive with
  | none => .error SevenZOpenError.genericErr
  | some arch =>
    if arch.encrypted ∧ pw ≠ arch.password then .error .encryptedErr
    else .ok arch.entries

/-- The user-facing outcome kinds of spec section 7 for a failed archive
open. -/
inductive ArchiveFailure where
  | ArchiveAuthFailed
  | ArchiveOpenFailed
deriving DecidableEq

/-- Embeds the error classification at the top of linearFilesIn7ZArchive
(and identically in filesIn7ZArchive and extract7ZFileBytes): a ReadError
with Encrypted set reports the invalid-password message, every other open
error the generic could-not-open message. -/
def classify7ZOpenError : SevenZOpenError → ArchiveFailure
  | .encryptedErr => .ArchiveAuthFailed
  | .genericErr => .ArchiveOpenFailed

/-- The fileitem built for one 7z entry inside linearFilesIn7ZArchive. -/
def sevenZItem (filename : String) (e : SevenZEntry) : fileitem :=
  { Path := filename, Name := e.name, Size := e.size, Modified := e.modified,
    Created := 0, Accessed := 0, IsDir := e.isDir, Mode := e.mode,
    LinkDest := "", InArchive := true, ftCache := NONE, FoundText := "" }

/-- Appending one matched file entry to a ListingSet as the linear 7z loop
does (directories never reach this point there). -/
def lsPushFile (ls : ListingSet) (item : fileitem) : ListingSet :=
  { ls with
    MatchedFiles := ls.MatchedFiles ++ [item]
    Filecount := ls.Filecount + 1
    Bytesfound := ls.Bytesfound + item.Size }

/-- Embeds the entry loop of linearFilesIn7ZArchive: directories are skipped;
each remaining entry is checked without text search first; an entry passing
those checks is read in full (SevenZReadAll, with no size bound) and, when a
text query is active, searched via archiveFileTextSearchFromData; an entry
failing the non-text checks is skipped without decoding (SevenZSkipNoop).
The temporary-file list is threaded through the text searches. -/
def linear7ZLoop (cfg : Config) (o : SearchOracle) (filename : String) :
    List SevenZEntry → ListingSet → List String → ListingSet × List String
  | [], ls, fs => (ls, fs)
  | e :: rest, ls, fs =>
    if e.isDir then linear7ZLoop cfg o filename rest ls fs
    else
      let item := sevenZItem filename e
      let meets := (fileMeetsConditions cfg o item true).1
      if meets then
        let contents := e.bytes
        if cfg.text_search_type ≠ SEARCH_NONE then
          let r := archiveFileTextSearchFromData cfg o fs item contents
          if r.1.1 = false then linear7ZLoop cfg o filename rest ls r.2
          else linear7ZLoop cfg o filename rest
            (lsPushFile ls { item with FoundText := r.1.2 }) r.2
        else linear7ZLoop cfg o filename rest (lsPushFile ls item) fs
      else linear7ZLoop cfg o filename rest ls fs

/-- Embeds linearFilesIn7ZArchive from dir.go, with the open-failure branch
reported as its user-facing classification. -/
def linearFilesIn7ZArchive (cfg : Config) (o : SearchOracle) (fs : List String)
    (archive : Option SevenZArchive) (filename : String) :
    Except ArchiveFailure (ListingSet × List String) :=
  match sevenzipOpen archive cfg.pw7zip with
  | .error e => .error (classify7ZOpenError e)
  | .ok files => .ok (linear7ZLoop cfg o filename files {} fs)

/-! The Traversal Driver, viewed through the runtime configuration.  dir.go
keeps the configuration in package globals; list_directory reads them at
every scope and, in its archive loop (the block guarded by listInArchives),
saves skipArchiveEntryMask, overwrites it from the archive name, recurses
into the archive scope, and restores it afterwards.  The model abstracts the
enumeration stage into a tree node carrying the collected archive names and
subdirectory children (enumeration reads but never writes the
configuration), and records the configuration in force on entry to every
list_directory scope.  Archive scopes enumerate container entries and never
collect further archives or subdirectories, so each contributes exactly its
own entry configuration; sort.Strings only permutes the archive names, which
leaves the set of recorded configurations unchanged. -/

inductive FSForest where
  | nil : FSForest
  | cons : List String → FSForest → FSForest → FSForest

/-- The configuration in force inside the archive scope for archive name d:
line 1816 of dir.go sets skipArchiveEntryMask to
!pathIsArchive && archiveNameMatchesMask(d). -/
def archiveScopeConfig (cfg : Config) (d : String) : Config :=
  { cfg with skipArchiveEntryMask := !cfg.pathIsArchive && archiveNameMatchesMask cfg d }

/-- The configurations observed at each traversal step of list_directory,
in order: the entry configuration of this directory scope, then one
configuration per descended archive (restored afterwards), then the steps of
the recursed subdirectories, each entered with the restored configuration.
A forest node cons archives first rest is a directory whose collected archive
names are archives and whose subdirectory children are first followed by the
directories of rest. -/
def nodeTrace (cfg : Config) : FSForest → List Config
  | .nil => []
  | .cons archives first rest =>
    (cfg ::
      ((if cfg.listInArchives then archives.map (archiveScopeConfig cfg) else []) ++
        (if cfg.recurse_directories then nodeTrace cfg first else []))) ++
      nodeTrace cfg rest

/-- The claim C1 view of a configuration: every field except the
skipArchiveEntryMask flag. -/
def queryView (c : Config) : Config := { c with skipArchiveEntryMask := false }

/-! Concrete sample values used by witnesses and counterexamples. -/

/-- A concrete collaborator bundle: a pattern that matches nothing, failing
zip and pdftotext boundaries, and a temp creator that always yields the same
fresh path. -/
def sampleOracle : SearchOracle :=
  { regexMatch := fun _ => false
    matchBuffer := fun _ _ => (false, "")
    zipList := fun _ => .error "no zip"
    zipExtract := fun _ _ _ => .error "no entry"
    runPdftotext := fun _ => .error "program not found"
    diskSearch := fun _ => (false, "")
    archiveSearch := fun _ => (false, "")
    stat := fun _ => none
    createTemp := fun _ _ => some "tmp-entry-0" }

/-- A collaborator bundle whose compiled pattern matches every buffer. -/
def matchAllOracle : SearchOracle :=
  { sampleOracle with
    regexMatch := fun _ => true
    matchBuffer := fun _ _ => (true, "") }

/-- Adapters that always fail, for exercising paths that must not reach
them. -/
def failingExtractors : Extractors :=
  { zip := fun _ _ _ _ => .error "zip boundary"
    sevenz := fun _ _ _ _ => .error "sevenz boundary"
    tgz := fun _ _ _ _ => .error "tgz boundary" }

/-- The C1 scenario configuration: a compiled star mask and archive descent
enabled, as produced by parsing a name mask together with the -z flag. -/
def c1cfg0 : Config :=
  { defaultConfig with haveGlobber := true, file_mask := "*", listInArchives := true }

/-- The C1 scenario tree: one directory whose enumeration collected the
single archive name ab.zip and no subdirectories. -/
def c1tree : FSForest := .cons ["ab.zip"] .nil .nil

/-- The configuration the C1 scenario run is in while inside the archive
scope. -/
def c1cfg1 : Config := { c1cfg0 with skipArchiveEntryMask := true }

/-- The C2 failing input: 19999 filler bytes, then the two pattern bytes 97
and 98 placed so that 97 is the last byte of the first chunk and 98 the first
byte of the second. -/
def c2file : List Nat := List.replicate 19999 120 ++ [97, 98]

/-- The C4 counterexample archive: one 7-Zip entry whose declared size
1000001 exceeds the in-memory bound. -/
def c4arch : SevenZArchive :=
  { encrypted := false, password := "",
    entries := [{ name := "big.txt", size := 1000001, modified := 0, isDir := false,
                  mode := 0, bytes := List.replicate 1000001 104 }] }

/-- The C4 counterexample configuration: a case-sensitive content query. -/
def c4cfg : Config := { defaultConfig with text_search_type := SEARCH_CASE }

/-- The C5 witness archive: an encrypted 7-Zip file holding one regular file
and one directory entry. -/
def c5arch : SevenZArchive :=
  { encrypted := true, password := "p",
    entries := [{ name := "doc.txt", size := 5, modified := 3, isDir := false,
                  mode := 420, bytes := [104, 101, 108, 108, 111] },
                { name := "sub/", size := 0, modified := 3, isDir := true,
                  mode := 493, bytes := [] }] }

/-- A cold fileitem for the C7 witness. -/
def c7f : fileitem := { Path := "/tmp", Name := "notes.txt", Size := 12, Mode := 420 }

/-- A fileitem agreeing with c7f on the classification inputs but differing
elsewhere. -/
def c7g : fileitem := { Path := "/other", Name := "notes.txt", Size := 99, Mode := 420 }

/-- The C10 witness archive: two entries, neither named the requested
name. -/
def c10entries : List ZipEntry :=
  [{ name := "word/document.xml", bytes := [60, 62] },
   { name := "word/theme1.xml", bytes := [60] }]

/-! Helper lemmas for the chunk loop and the two-literal pattern matcher. -/

/-- One unfolding of the chunk loop on positive fuel. -/
theorem searchLoop_step (m : List Nat → Bool) (fa : Bool) (c o fsz fuel : Nat)
    (rem buf : List Nat) (tf : Bool) (reads : Nat) :
    searchLoop m fa c o fsz (fuel + 1) rem buf tf reads =
      (let n := min c rem.length
       let buffer1 := buf.take o ++ rem.take n ++ buf.drop (o + n)
       let tf1 := if fa then (tf || m buffer1) else m buffer1
       if n < c ∨ n = fsz then (tf1, reads + 1)
       else if tf1 = true ∧ fa = false then (tf1, reads + 1)
       else searchLoop m fa c o fsz fuel (rem.drop n) buffer1 tf1 (reads + 1)) := rfl

/-- A head byte different from the first pattern byte cannot open a match. -/
theorem containsPair_cons_of_ne {a b c : Nat} (h : (c == a) = false) (l : List Nat) :
    containsPair a b (c :: l) = containsPair a b l := by
  cases l <;> simp [containsPair, h]

/-- Leading filler distinct from the first pattern byte never matches. -/
theorem containsPair_replicate_append {a b c : Nat} (h : (c == a) = false) (n : Nat)
    (l : List Nat) :
    containsPair a b (List.replicate n c ++ l) = containsPair a b l := by
  induction n with
  | zero => simp
  | succ k ih => rw [List.replicate_succ, List.cons_append, containsPair_cons_of_ne h, ih]

/-- A buffer holding the two pattern bytes adjacently always matches. -/
theorem containsPair_found (a b : Nat) :
    ∀ l1 l2 : List Nat, containsPair a b (l1 ++ a :: b :: l2) = true := by
  intro l1
  induction l1 with
  | nil => intro l2; simp [containsPair]
  | cons x xs ih =>
    intro l2
    cases xs with
    | nil =>
      have h2 := ih l2
      simp only [List.nil_append] at h2
      simp [containsPair, h2]
    | cons z zs =>
      have h2 := ih l2
      simp only [List.cons_append] at h2 ⊢
      simp [containsPair, h2]

/-- Length of the C2 failing input. -/
theorem c2file_length : c2file.length = 20001 := by
  rw [c2file]
  simp only [List.length_append, List.length_replicate, List.length_cons, List.length_nil]

/-- Symbolic evaluation of the chunk loop in first-match mode on a file one
byte longer than the chunk: two reads happen, and the two scan buffers the
loop actually matches against are the overlap-region zeros followed by the
first chunk, and the same zeros followed by the one freshly read byte and the
stale tail of the previous chunk.  The tail bytes of chunk one are never
copied into the overlap region, which keeps its initial zeros. -/
theorem diskSearch_two_chunk (m : List Nat → Bool) (c o x a b : Nat) (hc : 2 ≤ c)
    (hb1 : m (List.replicate o 0 ++ (List.replicate (c - 1) x ++ [a])) = false)
    (hb2 : m (List.replicate o 0 ++ (b :: (List.replicate (c - 2) x ++ [a]))) = false) :
    searchLoop m false c o (c + 1) ((c + 1) + 1) (List.replicate (c - 1) x ++ [a, b])
      (List.replicate (c + o) 0) false 0 = (false, 2) := by
  have hn : min c (List.replicate (c - 1) x ++ [a, b]).length = c := by
    simp only [List.length_append, List.length_replicate, List.length_cons, List.length_nil]
    omega
  have htk : (List.replicate (c - 1) x ++ [a, b]).take c = List.replicate (c - 1) x ++ [a] := by
    rw [List.take_append_eq_append_take, List.take_of_length_le (by simp),
      List.length_replicate, show c - (c - 1) = 1 by omega]
    rfl
  have hdk : (List.replicate (c - 1) x ++ [a, b]).drop c = [b] := by
    rw [List.drop_append_eq_append_drop, List.drop_eq_nil_of_le (by simp),
      List.length_replicate, show c - (c - 1) = 1 by omega]
    rfl
  have hbtk : (List.replicate (c + o) (0 : Nat)).take o = List.replicate o 0 := by
    rw [List.take_replicate, Nat.min_eq_left (by omega)]
  have hbdk : (List.replicate (c + o) (0 : Nat)).drop (o + c) = [] := by
    rw [List.drop_replicate, show c + o - (o + c) = 0 by omega]
    rfl
  have hbuf1tk : (List.replicate o (0 : Nat) ++ (List.replicate (c - 1) x ++ [a])).take o
      = List.replicate o 0 := by
    rw [List.take_append_eq_append_take, List.take_replicate, Nat.min_eq_left (le_refl o),
      List.length_replicate, Nat.sub_self]
    simp
  have hbuf1dk : (List.replicate o (0 : Nat) ++ (List.replicate (c - 1) x ++ [a])).drop (o + 1)
      = List.replicate (c - 2) x ++ [a] := by
    rw [List.drop_append_eq_append_drop, List.drop_eq_nil_of_le (by simp),
      List.length_replicate, show o + 1 - o = 1 by omega, List.nil_append,
      List.drop_append_eq_append_drop, List.drop_replicate, List.length_replicate,
      show c - 1 - 1 = c - 2 by omega, show (1 : Nat) - (c - 1) = 0 by omega, List.drop_zero]
  rw [searchLoop_step]
  simp only [hn, htk, hdk, hbtk, hbdk, List.append_nil]
  rw [if_neg (by omega)]
  simp only [hb1, Bool.false_eq_true, if_false]
  rw [if_neg (by simp)]
  rw [searchLoop_step]
  simp only [List.length_cons, List.length_nil]
  rw [Nat.min_eq_right (by omega : 0 + 1 ≤ c)]
  simp only [hbuf1tk, hbuf1dk, show (0 : Nat) + 1 = 1 from rfl, List.take_succ_cons,
    List.take_zero]
  rw [if_pos (by omega)]
  simp [List.append_assoc, hb2]

/-- Files strictly below one chunk: the loop scans exactly the file bytes in
one read. -/
theorem diskFileTextSearchFull_small (m : List Nat → Bool) (fa : Bool) (file : List Nat)
    (h : file.length < 20000) :
    diskFileTextSearchFull m fa file = (m file, 1) := by
  simp only [diskFileTextSearchFull]
  rw [if_pos h, if_pos h]
  rw [searchLoop_step]
  simp only [min_self, List.take_zero, List.take_length, Nat.zero_add, List.nil_append]
  rw [List.drop_eq_nil_of_le (by simp)]
  simp [Bool.false_or]

/-- A file of exactly one chunk: still a single read, but the scan buffer
keeps the 400 zero bytes of the never-filled overlap region in front of the
file bytes. -/
theorem diskFileTextSearchFull_exact (m : List Nat → Bool) (fa : Bool) (file : List Nat)
    (h : file.length = 20000) :
    diskFileTextSearchFull m fa file = (m (List.replicate 400 0 ++ file), 1) := by
  have hle : file.length ≤ 20000 := le_of_eq h
  simp only [diskFileTextSearchFull, h]
  rw [if_neg (by norm_num), if_neg (by norm_num)]
  rw [searchLoop_step]
  simp only [h, List.take_replicate, List.drop_replicate]
  norm_num [List.take_of_length_le hle]

/-! Claim theorems. -/

/-- Claim C2, failing input.  On a 20001-byte file whose two pattern bytes
straddle the chunk boundary at offset 20000 (byte 97 last in chunk one, byte
98 first in chunk two), the chunked disk text search reports no match even
though a whole-file scan of the same bytes with the same pattern matches:
diskFileTextSearch never copies the trailing bytes of a chunk into the
overlap region of the buffer, which stays zero-filled, so a match spanning a
block boundary is missed. -/
theorem C2_chunk_boundary_match_missed :
    diskFileTextSearch (containsPair 97 98) false c2file = false
    ∧ containsPair 97 98 c2file = true
    ∧ 20000 < c2file.length := by
  refine ⟨?_, ?_, ?_⟩
  · have h1 : containsPair 97 98
        (List.replicate 400 0 ++ (List.replicate (20000 - 1) 120 ++ [97])) = false := by
      rw [containsPair_replicate_append (by decide), containsPair_replicate_append (by decide)]
      rfl
    have h2 : containsPair 97 98
        (List.replicate 400 0 ++ (98 :: (List.replicate (20000 - 2) 120 ++ [97]))) = false := by
      rw [containsPair_replicate_append (by decide), containsPair_cons_of_ne (by decide),
        containsPair_replicate_append (by decide)]
      rfl
    have hloop := diskSearch_two_chunk (containsPair 97 98) 20000 400 120 97 98
      (by decide) h1 h2
    simp only [diskFileTextSearch, diskFileTextSearchFull, c2file_length]
    rw [if_neg (by decide), if_neg (by decide)]
    rw [c2file]
    exact congrArg Prod.fst hloop
  · rw [c2file]
    exact containsPair_found 97 98 (List.replicate 19999 120) []
  · rw [c2file_length]
    decide

/-- Claim C3, counterexample to the stated boundary.  A file of exactly one
chunk (20000 bytes, so at the block size and within the claimed bound) is
read in a single pass, but the 400 overlap bytes are included in the scanned
buffer: a pattern consisting of a zero byte followed by the first file byte
matches the scanned buffer although the file itself contains no such pair. -/
theorem C3_counterexample :
    diskFileTextSearch (containsPair 0 120) false (List.replicate 20000 120) = true
    ∧ diskFileTextSearchReads (containsPair 0 120) false (List.replicate 20000 120) = 1
    ∧ containsPair 0 120 (List.replicate 20000 120) = false
    ∧ (List.replicate 20000 (120 : Nat)).length ≤ 20000 := by
  have hlen : (List.replicate 20000 (120 : Nat)).length = 20000 := List.length_replicate ..
  have hfull := diskFileTextSearchFull_exact (containsPair 0 120) false _ hlen
  have hshape : (List.replicate 400 (0 : Nat) ++ List.replicate 20000 120)
      = List.replicate 399 0 ++ 0 :: 120 :: List.replicate 19999 120 := by
    rw [show List.replicate 400 (0 : Nat) = List.replicate 399 0 ++ [0] from
        List.replicate_succ' ..,
      show List.replicate 20000 (120 : Nat) = 120 :: List.replicate 19999 120 from
        List.replicate_succ ..]
    simp only [List.append_assoc, List.singleton_append]
  have hbuf : containsPair 0 120 (List.replicate 400 0 ++ List.replicate 20000 120) = true := by
    rw [hshape]
    exact containsPair_found 0 120 (List.replicate 399 0) (List.replicate 19999 120)
  have hnot : containsPair 0 120 (List.replicate 20000 120) = false := by
    have hx := containsPair_replicate_append
      (a := 0) (b := 120) (c := 120) (by decide) 20000 []
    rw [List.append_nil] at hx
    rw [hx]
    rfl
  refine ⟨?_, ?_, hnot, le_of_eq hlen⟩
  · simp only [diskFileTextSearch, hfull, hbuf]
  · simp only [diskFileTextSearchReads, hfull]

/-- Claim C3, amended: a file strictly smaller than one chunk (the block size
20000) is read by the chunked disk text search in a single pass, and the
scanned buffer is exactly the file bytes, with no overlap bytes: the reported
verdict is the matcher applied once to the file itself, after exactly one
read.  (At exactly the block size the pass is still single but the
zero-filled overlap region is scanned in front of the file bytes, as the
counterexample shows.) -/
theorem C3_single_pass_below_chunk (m : List Nat → Bool) (findAll : Bool) (file : List Nat)
    (h : file.length < 20000) :
    diskFileTextSearch m findAll file = m file
    ∧ diskFileTextSearchReads m findAll file = 1 := by
  have hfull := diskFileTextSearchFull_small m findAll file h
  exact ⟨by simp only [diskFileTextSearch, hfull], by simp only [diskFileTextSearchReads, hfull]⟩

/-- Witness for the amended C3 at a concrete two-byte file. -/
theorem C3_single_pass_below_chunk_witness :
    ([104, 105] : List Nat).length < 20000
    ∧ (diskFileTextSearch (containsPair 104 105) false [104, 105]
          = containsPair 104 105 [104, 105]
        ∧ diskFileTextSearchReads (containsPair 104 105) false [104, 105] = 1) :=
  ⟨by decide, C3_single_pass_below_chunk (containsPair 104 105) false [104, 105] (by decide)⟩

/-- Claim C9: when a content-search query is configured, every directory
entry fails the condition evaluator immediately with no excerpt, for every
possible behavior of the content-search collaborators (so no content-search
engine call can influence the outcome). -/
theorem C9_directories_never_content_searched (cfg : Config) (o : SearchOracle)
    (target : fileitem)
    (h1 : cfg.text_search_type ≠ SEARCH_NONE) (h2 : target.IsDir = true) :
    fileMeetsConditions cfg o target false = (false, "") := by
  have hts : textSearchBlock cfg o target false = .inl (false, "") := by
    unfold textSearchBlock
    rw [if_pos ⟨h1, rfl⟩, if_pos h2]
  unfold fileMeetsConditions
  rw [hts]
  simp only [ite_self]

/-- Witness for C9 at a concrete configuration and directory entry. -/
theorem C9_directories_never_content_searched_witness :
    ({ defaultConfig with text_search_type := SEARCH_CASE } : Config).text_search_type
        ≠ SEARCH_NONE
    ∧ ({ Name := "d", IsDir := true } : fileitem).IsDir = true
    ∧ fileMeetsConditions { defaultConfig with text_search_type := SEARCH_CASE } sampleOracle
        { Name := "d", IsDir := true } false = (false, "") :=
  ⟨by decide, rfl, C9_directories_never_content_searched
    { defaultConfig with text_search_type := SEARCH_CASE } sampleOracle
    { Name := "d", IsDir := true } (by decide) rfl⟩

/-- The classification body never returns the NONE sentinel: the DEFAULT
fallback guarantees it, which is what makes the cache test sound. -/
theorem fileTypeOf_ne_none (d : Bool) (mo : Nat) (nm : String) : fileTypeOf d mo nm ≠ NONE := by
  have key : ∀ x : Filetype, (if x = NONE then DEFAULT else x) ≠ NONE := by
    intro x
    by_cases hx : x = NONE
    · rw [if_pos hx]; decide
    · rw [if_neg hx]; exact hx
  exact key _

/-- Claim C7: on a cold cache the classification is computed from
(isDirectory, mode, name) alone and stored; the stored value is not the
sentinel, a repeated call returns the identical value and record without
recomputation, and two entries agreeing on (isDirectory, mode, name) classify
identically. -/
theorem C7_classification_memoized_and_pure (f g : fileitem) (hcache : f.ftCache = NONE)
    (hd : f.IsDir = g.IsDir) (hm : f.Mode = g.Mode) (hn : f.Name = g.Name) :
    f.FileType = (fileTypeOf f.IsDir f.Mode f.Name,
        { f with ftCache := fileTypeOf f.IsDir f.Mode f.Name })
    ∧ (f.FileType.2).FileType = f.FileType
    ∧ (f.FileType.2).ftCache = f.FileType.1
    ∧ f.FileType.1 ≠ NONE
    ∧ fileTypeOf f.IsDir f.Mode f.Name = fileTypeOf g.IsDir g.Mode g.Name := by
  have hcold : f.FileType = (fileTypeOf f.IsDir f.Mode f.Name,
      { f with ftCache := fileTypeOf f.IsDir f.Mode f.Name }) := by
    unfold fileitem.FileType
    rw [if_neg (by rw [hcache]; exact fun hh => hh rfl)]
  refine ⟨hcold, ?_, ?_, ?_, ?_⟩
  · rw [hcold]
    unfold fileitem.FileType
    rw [if_pos (fileTypeOf_ne_none f.IsDir f.Mode f.Name)]
  · rw [hcold]
  · rw [hcold]
    exact fileTypeOf_ne_none f.IsDir f.Mode f.Name
  · rw [hd, hm, hn]

/-- Witness for C7 at two concrete entries sharing classification inputs. -/
theorem C7_classification_memoized_and_pure_witness :
    c7f.ftCache = NONE
    ∧ (c7f.FileType = (fileTypeOf c7f.IsDir c7f.Mode c7f.Name,
          { c7f with ftCache := fileTypeOf c7f.IsDir c7f.Mode c7f.Name })
        ∧ (c7f.FileType.2).FileType = c7f.FileType
        ∧ (c7f.FileType.2).ftCache = c7f.FileType.1
        ∧ c7f.FileType.1 ≠ NONE
        ∧ fileTypeOf c7f.IsDir c7f.Mode c7f.Name = fileTypeOf c7g.IsDir c7g.Mode c7g.Name) :=
  ⟨rfl, C7_classification_memoized_and_pure c7f c7g rfl rfl rfl rfl⟩

/-- Claim C8: case-insensitive matching of pattern P against name N equals
case-sensitive matching of the upper-cased pattern against the upper-cased
name; the pattern is upper-cased once when the matcher is compiled
(compiledMask, from the end of parseCmdLine) and the candidate name at each
match (nameMaskTest, from fileMeetsConditions). -/
theorem C8_insensitive_match_is_uppercased_sensitive_match (cfg : Config) (P N : String) :
    nameMaskTest { cfg with file_mask := P, case_sensitive := false } N
      = nameMaskTest { cfg with file_mask := goToUpper P, case_sensitive := true } (goToUpper N)
    ∧ compiledMask { cfg with file_mask := P, case_sensitive := false } = goToUpper P := by
  constructor <;> rfl

/-- Claim C4, amended: every entry content-searched through the in-memory
loader archiveFileBytes (ZIP, gzip+TAR, and the non-linear 7-Zip path) whose
declared size exceeds 1,000,000 bytes is rejected before any container
adapter runs — the result is the same for every adapter implementation — and
archiveFileTextSearch reports the entry as not matching with no temp-file
effect.  (The linear 7-Zip listing reads entries in full without this bound,
as the counterexample shows.) -/
theorem C4_large_entry_skipped_in_memory_loader (cfg : Config) (o : SearchOracle)
    (x : Extractors) (fs : List String) (target : fileitem) (h : target.Size > 1000000) :
    archiveFileBytes x target = .error "archive entry too large"
    ∧ archiveFileTextSearch cfg o x fs target = ((false, ""), fs) := by
  have hb : archiveFileBytes x target = .error "archive entry too large" := by
    unfold archiveFileBytes
    rw [if_pos h]
  exact ⟨hb, by unfold archiveFileTextSearch; rw [hb]⟩

/-- Witness for the amended C4 at a concrete over-sized entry. -/
theorem C4_large_entry_skipped_in_memory_loader_witness :
    ({ Name := "big.bin", Size := 1000001 } : fileitem).Size > 1000000
    ∧ (archiveFileBytes failingExtractors { Name := "big.bin", Size := 1000001 }
          = .error "archive entry too large"
        ∧ archiveFileTextSearch defaultConfig sampleOracle failingExtractors []
          { Name := "big.bin", Size := 1000001 } = ((false, ""), [])) :=
  ⟨by decide, C4_large_entry_skipped_in_memory_loader defaultConfig sampleOracle
    failingExtractors [] { Name := "big.bin", Size := 1000001 } (by decide)⟩

/-- Claim C4, counterexample to the universal statement: in the linear 7-Zip
listing used by the traversal driver, an entry of declared size 1,000,001 is
read in full and content-searched, and is reported as matching when its bytes
match — it is not skipped and not reported as non-matching. -/
theorem C4_counterexample_linear_sevenzip_ignores_bound :
    (linearFilesIn7ZArchive c4cfg matchAllOracle [] (some c4arch) "docs.7z").map
        (fun r => r.1.MatchedFiles.map fileitem.Name) = .ok ["big.txt"]
    ∧ (1000001 : Int) > 1000000
    ∧ c4arch.entries.map SevenZEntry.size = [1000001] := by
  refine ⟨rfl, by decide, rfl⟩

/-- Claim C6: whenever the nested-document search materializes archive-entry
bytes to a temporary file (the path CreateTemp returned, fresh by its
contract), the file set on return equals the file set on entry — the
temporary file no longer exists — for every behavior of the pdftotext, zip
and matcher collaborators, hence on every exit path: match, no-match, or
error, including failure of the PDF text extraction. -/
theorem C6_temp_file_removed_on_every_path (cfg : Config) (o : SearchOracle)
    (fs : List String) (target : fileitem) (data : List Nat) (p : String)
    (hc : o.createTemp fs (sanitizeTempPattern target.Name) = some p)
    (hf : p ∉ fs) :
    (archiveFileTextSearchFromData cfg o fs target data).2 = fs := by
  have herase : (fs ++ [p]).erase p = fs := by
    rw [List.erase_append_right _ hf]
    simp
  unfold archiveFileTextSearchFromData
  by_cases hext : target.Extension = "DOCX" ∨ target.Extension = "PPTX"
      ∨ target.Extension = "XLSX" ∨ target.Extension = "VSDX" ∨ target.Extension = "PDF"
  · rw [if_pos hext, hc]
    exact herase
  · rw [if_neg hext]

/-- Witness for C6 at a concrete PDF archive entry and collaborator bundle. -/
theorem C6_temp_file_removed_on_every_path_witness :
    sampleOracle.createTemp []
        (sanitizeTempPattern ({ Name := "report.pdf", InArchive := true } : fileitem).Name)
        = some "tmp-entry-0"
    ∧ "tmp-entry-0" ∉ ([] : List String)
    ∧ (archiveFileTextSearchFromData defaultConfig sampleOracle []
        { Name := "report.pdf", InArchive := true } [37, 80, 68, 70]).2 = [] :=
  ⟨rfl, by simp, C6_temp_file_removed_on_every_path defaultConfig sampleOracle []
    { Name := "report.pdf", InArchive := true } [37, 80, 68, 70] "tmp-entry-0" rfl (by simp)⟩

/-- The pseudo-seek loop never changes the length of the main buffer: the
throwaway branch does not touch it and the full-read branch overwrites a
prefix in place. -/
theorem zipSeekLoop_length (entry : List Nat) (length offset : Nat) :
    ∀ fuel curPos pos buffer,
      ((zipSeekLoop entry length offset fuel curPos pos buffer).2).length = buffer.length := by
  intro fuel
  induction fuel with
  | zero => intro curPos pos buffer; rfl
  | succ k ih =>
    intro curPos pos buffer
    unfold zipSeekLoop
    by_cases h1 : curPos < offset
    · rw [if_pos h1]
      by_cases h2 : length + curPos > offset
      · rw [if_pos h2]
        exact ih ..
      · rw [if_neg h2]
        rw [ih ..]
        have hn : min buffer.length (entry.length - pos) ≤ buffer.length := min_le_left ..
        have hn2 : min buffer.length (entry.length - pos) ≤ entry.length - pos := min_le_right ..
        simp only [List.length_append, List.length_take, List.length_drop, List.length_drop]
        omega
    · rw [if_neg h1]

/-- Unfolding of extractZipFileBytes on a successfully opened archive. -/
theorem extractZipFileBytes_some (entries : List ZipEntry) (fn : String)
    (offset length : Nat) :
    extractZipFileBytes (some entries) fn offset length =
      (match entries.find? (fun e => e.name == fn) with
       | none => .ok (List.replicate length (0 : Nat))
       | some e =>
         match e.openErr with
         | some err => .error err
         | none =>
           let st := zipSeekLoop e.bytes length offset (offset + 1) 0 0
             (List.replicate length (0 : Nat))
           let n := min st.2.length (e.bytes.length - st.1)
           .ok ((e.bytes.drop st.1).take n ++ st.2.drop n)) := rfl

/-- Claim C10: requesting an entry name absent from a ZIP archive that opens
successfully returns the zero-filled buffer of exactly the requested length
with no error; and in general every successful extraction returns a byte
slice of exactly the requested length, however many entry bytes were actually
read. -/
theorem C10_missing_zip_entry_zero_buffer (entries : List ZipEntry) (filename : String)
    (offset length : Nat) (archive : Option (List ZipEntry)) (fn : String) (off len : Nat)
    (bs : List Nat)
    (h : entries.all (fun e => !(e.name == filename)) = true)
    (hok : extractZipFileBytes archive fn off len = .ok bs) :
    extractZipFileBytes (some entries) filename offset length = .ok (List.replicate length 0)
    ∧ bs.length = len := by
  constructor
  · have hfind : entries.find? (fun e => e.name == filename) = none := by
      rw [List.find?_eq_none]
      intro x hx
      have hx2 := (List.all_eq_true.mp h) x hx
      simpa using hx2
    rw [extractZipFileBytes_some, hfind]
  · cases archive with
    | none => exact absurd hok (by simp [extractZipFileBytes])
    | some es =>
      rw [extractZipFileBytes_some] at hok
      cases hfind : es.find? (fun e => e.name == fn) with
      | none =>
        rw [hfind] at hok
        simp only [Except.ok.injEq] at hok
        rw [← hok, List.length_replicate]
      | some e =>
        rw [hfind] at hok
        simp only [] at hok
        cases hoe : e.openErr with
        | some err =>
          rw [hoe] at hok
          exact absurd hok (by simp)
        | none =>
          rw [hoe] at hok
          simp only [Except.ok.injEq] at hok
          rw [← hok]
          have hseek := zipSeekLoop_length e.bytes len off (off + 1) 0 0
            (List.replicate len 0)
          set st := zipSeekLoop e.bytes len off (off + 1) 0 0 (List.replicate len 0) with hst
          have hlen2 : (st.2).length = len := by
            rw [hseek, List.length_replicate]
          have hn1 : min st.2.length (e.bytes.length - st.1) ≤ st.2.length := min_le_left ..
          have hn2 : min st.2.length (e.bytes.length - st.1) ≤ e.bytes.length - st.1 :=
            min_le_right ..
          simp only [List.length_append, List.length_take, List.length_drop]
          omega

/-- Witness for C10: a missing name among two concrete entries, and a
successful concrete extraction whose result has the requested length. -/
theorem C10_missing_zip_entry_zero_buffer_witness :
    c10entries.all (fun e => !(e.name == "missing.txt")) = true
    ∧ extractZipFileBytes (some c10entries) "word/document.xml" 0 1 = .ok [60]
    ∧ (extractZipFileBytes (some c10entries) "missing.txt" 0 4 = .ok (List.replicate 4 0)
        ∧ ([60] : List Nat).length = 1) :=
  ⟨by decide, rfl, C10_missing_zip_entry_zero_buffer c10entries "missing.txt" 0 4
    (some c10entries) "word/document.xml" 0 1 [60] (by decide) rfl⟩

/-- The condition evaluator accepts any entry of legal int64 size under the
initial (default) configuration when text search is suppressed. -/
theorem fmc_default_noText (pw : String) (o : SearchOracle) (item : fileitem)
    (h0 : 0 ≤ item.Size) (h1 : item.Size ≤ 9223372036854775807) :
    fileMeetsConditions { defaultConfig with pw7zip := pw } o item true = (true, "") := by
  have hts : textSearchBlock { defaultConfig with pw7zip := pw } o item true = .inr "" := by
    unfold textSearchBlock
    rw [if_neg (by rintro ⟨-, hx⟩; exact Bool.noConfusion hx)]
  unfold fileMeetsConditions
  rw [hts]
  rw [if_neg (by rintro ⟨hx, -⟩; exact Bool.noConfusion hx),
    if_neg (by rintro ⟨hx, -⟩; exact Bool.noConfusion hx),
    if_neg (by rintro ⟨hx, -⟩; exact hx rfl),
    if_neg (by rintro ⟨hx, -⟩; exact hx rfl),
    if_neg (by rintro ⟨hx, -⟩; exact Bool.noConfusion hx),
    if_neg (by rintro ⟨hx, -⟩; exact hx rfl),
    if_neg (by rintro ⟨hx, -⟩; exact hx rfl),
    if_neg (by show ¬(item.Size < -1 ∨ item.Size > 9223372036854775807); omega),
    if_neg (by rintro ⟨hx, -⟩; exact Bool.noConfusion hx)]
  simp only []
  rw [if_neg (fun hx => Bool.noConfusion hx)]

/-- The linear 7z loop under a configuration with no text query lists exactly
the non-directory entries that pass the non-text checks. -/
theorem linear7ZLoop_no_text (cfg : Config) (o : SearchOracle) (filename : String)
    (htxt : cfg.text_search_type = SEARCH_NONE) :
    ∀ (es : List SevenZEntry) (ls : ListingSet) (fs : List String),
      (∀ e ∈ es, e.isDir = false →
        fileMeetsConditions cfg o (sevenZItem filename e) true = (true, "")) →
      (linear7ZLoop cfg o filename es ls fs).1.MatchedFiles
        = ls.MatchedFiles ++ (es.filter (fun e => e.isDir = false)).map (sevenZItem filename) := by
  intro es
  induction es with
  | nil =>
    intro ls fs _
    simp [linear7ZLoop]
  | cons e rest ih =>
    intro ls fs hfm
    unfold linear7ZLoop
    by_cases hdir : e.isDir = true
    · rw [if_pos hdir]
      rw [ih ls fs (fun x hx hxd => hfm x (List.mem_cons_of_mem e hx) hxd)]
      simp [List.filter_cons, hdir]
    · rw [if_neg hdir]
      have hm := hfm e (List.mem_cons_self e rest) (by simpa using hdir)
      simp only [hm, htxt, if_true]
      rw [if_neg (fun hx => hx rfl)]
      rw [ih (lsPushFile ls (sevenZItem filename e)) fs
        (fun x hx hxd => hfm x (List.mem_cons_of_mem e hx) hxd)]
      simp [lsPushFile, List.filter_cons, hdir]

/-- Unfolding of the open call on a present archive. -/
theorem sevenzipOpen_some (arch : SevenZArchive) (pw : String) :
    sevenzipOpen (some arch) pw =
      (if arch.encrypted = true ∧ pw ≠ arch.password then .error SevenZOpenError.encryptedErr
       else .ok arch.entries) := rfl

/-- Unfolding of linearFilesIn7ZArchive into open plus loop. -/
theorem linearFilesIn7ZArchive_eq (cfg : Config) (o : SearchOracle) (fs : List String)
    (archive : Option SevenZArchive) (filename : String) :
    linearFilesIn7ZArchive cfg o fs archive filename =
      (match sevenzipOpen archive cfg.pw7zip with
       | .error e => .error (classify7ZOpenError e)
       | .ok files => .ok (linear7ZLoop cfg o filename files {} fs)) := rfl

/-- Claim C5: opening an encrypted 7-Zip archive with a wrong password yields
the invalid-password outcome ArchiveAuthFailed, distinct from the
ArchiveOpenFailed outcome produced for a missing archive; opened with the
correct password, the archive enumerates exactly its non-directory entries
under the default query. -/
theorem C5_seven_zip_auth_distinguished (arch : SevenZArchive)
    (wrongPw rightPw filename : String) (o : SearchOracle) (fs : List String)
    (henc : arch.encrypted = true) (hw : wrongPw ≠ arch.password) (hr : rightPw = arch.password)
    (hsz : arch.entries.all
        (fun e => decide (0 ≤ e.size) && decide (e.size ≤ 9223372036854775807)) = true) :
    linearFilesIn7ZArchive { defaultConfig with pw7zip := wrongPw } o fs (some arch) filename
        = .error ArchiveFailure.ArchiveAuthFailed
    ∧ linearFilesIn7ZArchive { defaultConfig with pw7zip := wrongPw } o fs none filename
        = .error ArchiveFailure.ArchiveOpenFailed
    ∧ ArchiveFailure.ArchiveAuthFailed ≠ ArchiveFailure.ArchiveOpenFailed
    ∧ (linearFilesIn7ZArchive { defaultConfig with pw7zip := rightPw } o fs (some arch)
          filename).map (fun r => r.1.MatchedFiles.map fileitem.Name)
        = .ok ((arch.entries.filter (fun e => e.isDir = false)).map SevenZEntry.name) := by
  refine ⟨?_, rfl, by decide, ?_⟩
  · have hopen : sevenzipOpen (some arch) wrongPw = .error SevenZOpenError.encryptedErr := by
      rw [sevenzipOpen_some, if_pos ⟨henc, hw⟩]
    rw [linearFilesIn7ZArchive_eq,
      show ({ defaultConfig with pw7zip := wrongPw } : Config).pw7zip = wrongPw from rfl, hopen]
    rfl
  · have hopen : sevenzipOpen (some arch) rightPw = .ok arch.entries := by
      rw [sevenzipOpen_some, if_neg (by rintro ⟨-, hx⟩; exact hx hr)]
    rw [linearFilesIn7ZArchive_eq,
      show ({ defaultConfig with pw7zip := rightPw } : Config).pw7zip = rightPw from rfl, hopen]
    have hsz2 := List.all_eq_true.mp hsz
    have hloop := linear7ZLoop_no_text { defaultConfig with pw7zip := rightPw } o filename rfl
      arch.entries {} fs
      (fun e he _ => by
        have hb := hsz2 e he
        rw [Bool.and_eq_true, decide_eq_true_eq, decide_eq_true_eq] at hb
        exact fmc_default_noText rightPw o (sevenZItem filename e) hb.1 hb.2)
    simp only [Except.map, hloop]
    simp only [List.nil_append, List.map_map]
    rfl

/-- Witness for C5 at a concrete encrypted archive, wrong and right
passwords. -/
theorem C5_seven_zip_auth_distinguished_witness :
    c5arch.encrypted = true
    ∧ "x" ≠ c5arch.password
    ∧ "p" = c5arch.password
    ∧ c5arch.entries.all
        (fun e => decide (0 ≤ e.size) && decide (e.size ≤ 9223372036854775807)) = true
    ∧ (linearFilesIn7ZArchive { defaultConfig with pw7zip := "x" } sampleOracle []
          (some c5arch) "enc.7z" = .error ArchiveFailure.ArchiveAuthFailed
        ∧ linearFilesIn7ZArchive { defaultConfig with pw7zip := "x" } sampleOracle []
          none "enc.7z" = .error ArchiveFailure.ArchiveOpenFailed
        ∧ ArchiveFailure.ArchiveAuthFailed ≠ ArchiveFailure.ArchiveOpenFailed
        ∧ (linearFilesIn7ZArchive { defaultConfig with pw7zip := "p" } sampleOracle []
              (some c5arch) "enc.7z").map (fun r => r.1.MatchedFiles.map fileitem.Name)
            = .ok ((c5arch.entries.filter (fun e => e.isDir = false)).map SevenZEntry.name)) :=
  ⟨rfl, by decide, rfl, by decide, C5_seven_zip_auth_distinguished c5arch "x" "p" "enc.7z"
    sampleOracle [] rfl (by decide) rfl (by decide)⟩

/-- Claim C1, counterexample.  With a compiled star mask and archive descent
on, traversing a directory holding one archive records two traversal-step
configurations: the initial one, and — inside the archive scope — one whose
skipArchiveEntryMask flag was flipped to true by list_directory before the
archive recursion.  A query-configuration value is therefore mutated during
traversal. -/
theorem C1_query_config_mutated_counterexample :
    nodeTrace c1cfg0 c1tree = [c1cfg0, c1cfg1]
    ∧ c1cfg1.skipArchiveEntryMask ≠ c1cfg0.skipArchiveEntryMask := by
  constructor
  · decide
  · decide

/-- Claim C1, amended: at every traversal step, every configuration field
other than skipArchiveEntryMask — the name pattern and its case flag, the
size and date bounds and selector, the extension lists, the content-search
mode, the archive-descent flag and the archive password among them — equals
its value in the initial configuration; only the skipArchiveEntryMask
pass-through flag is saved, overwritten and restored around each archive
descent. -/
theorem C1_query_fields_stable_under_traversal (cfg : Config) (t : FSForest) :
    ∀ c ∈ nodeTrace cfg t, queryView c = queryView cfg := by
  induction t with
  | nil => intro c hc; simp [nodeTrace] at hc
  | cons archives first rest ih1 ih2 =>
    intro c hc
    unfold nodeTrace at hc
    rcases List.mem_append.mp hc with hc1 | hc2
    · rcases List.mem_cons.mp hc1 with rfl | hc3
      · rfl
      · rcases List.mem_append.mp hc3 with hc4 | hc5
        · by_cases hz : cfg.listInArchives = true
          · rw [if_pos hz] at hc4
            obtain ⟨d, _, rfl⟩ := List.mem_map.mp hc4
            rfl
          · rw [if_neg hz] at hc4
            exact absurd hc4 (List.not_mem_nil c)
        · by_cases hrc : cfg.recurse_directories = true
          · rw [if_pos hrc] at hc5
            exact ih1 c hc5
          · rw [if_neg hrc] at hc5
            exact absurd hc5 (List.not_mem_nil c)
    · exact ih2 c hc2

/-- Witness for the amended C1 at the archive-scope configuration of the
concrete scenario. -/
theorem C1_query_fields_stable_under_traversal_witness :
    c1cfg1 ∈ nodeTrace c1cfg0 c1tree ∧ queryView c1cfg1 = queryView c1cfg0 :=
  ⟨by decide, C1_query_fields_stable_under_traversal c1cfg0 c1tree c1cfg1 (by decide)⟩

end Dir
